import Mathlib

/-!
Shallow embedding of the shellfish core (package `cmd`): the radial-profile
accumulator and normalizer from `prof.go` (`src/unnamed/part_000`), the
merger-tree history walker from `cmd/tree.go`, and the empty-input dispatch
of `shellfish.go`.  Go `float64`/`float32` arithmetic is modelled over `ℝ`,
Go `int`/`int64` over `ℤ`, Go slices over `List`, and Go panics (index out
of range) over `Option`/an explicit `panicked` outcome.
-/

namespace Shellfish

/-- `geom.Sphere`: a halo bounding sphere with center `C` and radius `R`
(source fields `C [3]float32`, `R float32`). -/
structure Sphere where
  C : ℝ × ℝ × ℝ
  R : ℝ

/-- `ProfConfig` (prof.go lines 18-22): bin count `bins` (`int64`) and the
radius multipliers `rMaxMult`, `rMinMult` (`float64`), in source field order. -/
structure ProfConfig where
  bins : ℤ
  rMaxMult : ℝ
  rMinMult : ℝ

/-- `ProfConfig.validate` (prof.go lines 62-74) returns an error exactly when
this predicate holds: it tests `bins < 0` (not `<= 0`), `rMinMult <= 0`, and
`rMaxMult <= 0`. -/
def validateFails (config : ProfConfig) : Prop :=
  config.bins < 0 ∨ config.rMinMult ≤ 0 ∨ config.rMaxMult ≤ 0

/-- Go's `int(x)` conversion of a `float64`: truncation toward zero. -/
noncomputable def goInt (x : ℝ) : ℤ :=
  if 0 ≤ x then ⌊x⌋ else -⌊-x⌋

/-- The squared Euclidean distance `dx*dx + dy*dy + dz*dz` computed by the
particle loop of `insertPoints` (prof.go lines 227-229) for a particle `p`
against sphere center `s.C`. -/
def sqDist (s : Sphere) (p : ℝ × ℝ × ℝ) : ℝ :=
  (p.1 - s.C.1) * (p.1 - s.C.1) + (p.2.1 - s.C.2.1) * (p.2.1 - s.C.2.1) +
    (p.2.2 - s.C.2.2) * (p.2.2 - s.C.2.2)

/-- The particle loop of `insertPoints` (prof.go lines 226-234).  Mirrors the
source exactly: on an out-of-range particle (`r2 <= rMin2 || r2 >= rMax2`) the
function RETURNS, abandoning all remaining particles of the block (`return`,
not `continue`).  `rhos[ir] += ms[i]` panics when `ir` is out of range, and
`ms[i]` panics when the mass slice is shorter than the position slice; both
panics are modelled as `none`. -/
noncomputable def insertLoop (lrMin dlr rMin2 rMax2 x0 y0 z0 : ℝ) :
    List ℝ → List (ℝ × ℝ × ℝ) → List ℝ → Option (List ℝ)
  | rhos, [], _ => some rhos
  | rhos, (x, y, z) :: xs, ms =>
    let dx := x - x0
    let dy := y - y0
    let dz := z - z0
    let r2 := dx * dx + dy * dy + dz * dz
    if r2 ≤ rMin2 ∨ r2 ≥ rMax2 then some rhos
    else
      match ms with
      | [] => none
      | m :: ms =>
        let lr := Real.log r2 / 2
        let ir := goInt ((lr - lrMin) / dlr)
        if 0 ≤ ir ∧ ir.toNat < rhos.length then
          insertLoop lrMin dlr rMin2 rMax2 x0 y0 z0
            (rhos.set ir.toNat (rhos.getD ir.toNat 0 + m)) xs ms
        else none

/-- `insertPoints` (prof.go lines 212-235): accumulates the masses `ms` of the
block's particles `xs` into the log-radial bins `rhos` of the halo sphere `s`. -/
noncomputable def insertPoints (rhos : List ℝ) (s : Sphere)
    (xs : List (ℝ × ℝ × ℝ)) (ms : List ℝ) (config : ProfConfig) :
    Option (List ℝ) :=
  let lrMax := Real.log (s.R * config.rMaxMult)
  let lrMin := Real.log (s.R * config.rMinMult)
  let dlr := (lrMax - lrMin) / (config.bins : ℝ)
  let rMax2 := (s.R * config.rMaxMult) * (s.R * config.rMaxMult)
  let rMin2 := (s.R * config.rMinMult) * (s.R * config.rMinMult)
  insertLoop lrMin dlr rMin2 rMax2 s.C.1 s.C.2.1 s.C.2.2 rhos xs ms

/-- The bin index stated by the spec (§4.3) and by the claim:
`⌊(ln r − ln rMin) / Δln r⌋` with `r = √r2`, `rMin = s.R * rMinMult`,
`rMax = s.R * rMaxMult` and `Δln r = (ln rMax − ln rMin) / bins`.  Stated from
the claim's words, for comparison with the bin index computed by
`insertPoints`. -/
noncomputable def specBinIndex (config : ProfConfig) (s : Sphere) (r2 : ℝ) : ℤ :=
  let rMin := s.R * config.rMinMult
  let rMax := s.R * config.rMaxMult
  let dlnr := (Real.log rMax - Real.log rMin) / (config.bins : ℝ)
  ⌊(Real.log (Real.sqrt r2) - Real.log rMin) / dlnr⌋

/-- `processProfile` (prof.go lines 237-252): turns raw per-bin masses `rhos`
over support `[rMin, rMax]` into bin-center radii and densities.  The loop
runs over the `n = len(rs)` indices; reading `rhos[j]` panics (modelled as
`none`) when `rhos` is shorter than `rs`. -/
noncomputable def processProfile (rs rhos : List ℝ) (rMin rMax : ℝ) :
    Option (List ℝ × List ℝ) :=
  let n := rs.length
  let dlr := (Real.log rMax - Real.log rMin) / (n : ℝ)
  let lrMin := Real.log rMin
  if rhos.length < n then none
  else
    some ((List.range n).map (fun (j : ℕ) => Real.exp (lrMin + dlr * ((j : ℝ) + 1/2))),
      (List.range n).map (fun (j : ℕ) =>
        let rLo := Real.exp (dlr * (j : ℝ) + lrMin)
        let rHi := Real.exp (dlr * ((j : ℝ) + 1) + lrMin)
        let dV := (rHi * rHi * rHi - rLo * rLo * rLo) * 4 * Real.pi / 3
        rhos.getD j 0 / dV))

/-- The value of `processProfile` when it does not panic. -/
noncomputable def processProfileOut (rs rhos : List ℝ) (rMin rMax : ℝ) :
    List ℝ × List ℝ :=
  (processProfile rs rhos rMin rMax).getD ([], [])

/-- The bin edge stated by the spec (§4.4) and by the claim: the log-space
point `exp(ln(rMin) + Δlnr·x)` over support `[rMin, rMax]` with `n` bins,
where `Δlnr = (ln rMax − ln rMin) / n`.  Stated from the claim's words, for
comparison with the radii and edges computed by `processProfile`. -/
noncomputable def specEdge (rMin rMax : ℝ) (n : ℕ) (x : ℝ) : ℝ :=
  Real.exp (Real.log rMin + (Real.log rMax - Real.log rMin) / (n : ℝ) * x)

/-- The shell volume stated by the claim: `(4/3)π(r_hi³ − r_lo³)` with
`r_lo, r_hi` the log-space edges of bin `j` exponentiated. -/
noncomputable def specShellVol (rMin rMax : ℝ) (n j : ℕ) : ℝ :=
  (4/3) * Real.pi *
    ((specEdge rMin rMax n ((j : ℝ) + 1)) ^ 3 - (specEdge rMin rMax n (j : ℝ)) ^ 3)

/-- The per-halo radius source of the normalization loop (prof.go lines
184-185): the loop reads `coords[i][4]`, i.e. column `i` of the parsed float
columns at row index 4.  `none` models the Go index-out-of-range panic. -/
def normRadius (coords : List (List ℝ)) (i : ℕ) : Option ℝ :=
  (coords.get? i).bind (fun col => col.get? 4)

/-- The radius source the claim (and spec §4.3/§4.4) states: halo `i`'s own
`R200m`, which is the fourth parsed float column (input column 5) at row `i`.
Stated from the claim's words, for comparison with `normRadius`. -/
def specR200m (coords : List (List ℝ)) (i : ℕ) : Option ℝ :=
  (coords.get? 3).bind (fun col => col.get? i)

/-- The per-halo normalization loop of `ProfConfig.Run` (prof.go lines
183-187): for each halo `i` it computes `rMax = coords[i][4]*rMaxMult`,
`rMin = coords[i][4]*rMinMult` and calls `processProfile`.  `none` models a
panic (out-of-range read of `coords[i][4]`, or inside `processProfile`). -/
noncomputable def normLoopAux (config : ProfConfig) (coords : List (List ℝ))
    (i : ℕ) : List (List ℝ) → List (List ℝ) →
    Option (List (List ℝ) × List (List ℝ))
  | [], _ => some ([], [])
  | rs :: rSets, rhoSets =>
    match normRadius coords i with
    | none => none
    | some r =>
      let rMax := r * config.rMaxMult
      let rMin := r * config.rMinMult
      match rhoSets with
      | [] => none
      | rhos :: rhoSets =>
        match processProfile rs rhos rMin rMax with
        | none => none
        | some (rs1, rhos1) =>
          match normLoopAux config coords (i + 1) rSets rhoSets with
          | none => none
          | some (restR, restRho) => some (rs1 :: restR, rhos1 :: restRho)

/-- The normalization loop started at halo index 0. -/
noncomputable def normLoop (config : ProfConfig) (coords : List (List ℝ))
    (rSets rhoSets : List (List ℝ)) :
    Option (List (List ℝ) × List (List ℝ)) :=
  normLoopAux config coords 0 rSets rhoSets

/-- One row of the parsed input table (§6): `ID, Snapshot, X, Y, Z, R200m`. -/
def InputRow : Type := ℤ × ℤ × ℝ × ℝ × ℝ × ℝ

/-- Modelled from the spec: `catalog.ParseCols` (package `cmd/catalog`, not
under `src/`) deserializes the input table into the requested integer columns
`{0, 1}` and float columns `{2, 3, 4, 5}` (§6: one row per halo with columns
`ID, Snapshot, X, Y, Z, R200m`).  It returns one slice per requested column —
`tree.go` line 29 reads `intCols[0]` unconditionally, so the outer slices are
present even when there are zero data rows, in which case each column is
empty. -/
def parseCols (rows : List InputRow) : List (List ℤ) × List (List ℝ) :=
  ([rows.map (fun r => r.1), rows.map (fun r => r.2.1)],
   [rows.map (fun r => r.2.2.1), rows.map (fun r => r.2.2.2.1),
    rows.map (fun r => r.2.2.2.2.1), rows.map (fun r => r.2.2.2.2.2)])

/-- Outcome of running a Go function: a normal result, a returned `error`, or
a runtime panic. -/
inductive GoResult (α : Type) where
  | ok : α → GoResult α
  | err : String → GoResult α
  | panicked : GoResult α

/-- The entry of `ProfConfig.Run` (prof.go lines 94-130) up to the first
particle-catalog access: parse the columns, return the error `"No input IDs."`
when `len(intCols) == 0`, then read `ids := intCols[0]`, `snaps := intCols[1]`
and evaluate `e.ParticleCatalog(snaps[0], 0)` (line 125), whose `snaps[0]`
panics on an empty snapshot column.  The grouping `binBySnap(snaps, ids)`
(line 109, not under `src/`) returns two values and no error, so it cannot
stop the run and is elided.  `ok s` means the prefix succeeded and the
snapshot loop starts with first parsed snapshot `s`. -/
def profRunStart (rows : List InputRow) : GoResult ℤ :=
  let intCols := (parseCols rows).1
  if intCols.length = 0 then GoResult.err "No input IDs."
  else
    match intCols.get? 1 with
    | none => GoResult.panicked
    | some snaps =>
      match snaps.get? 0 with
      | none => GoResult.panicked
      | some s0 => GoResult.ok s0

/-- The concatenation loop of `TreeConfig.Run` (tree.go lines 42-51) applied
to one of the two parallel column families: append each set, and after every
set but the last append the sentinel `-1`. -/
def sentinelConcat : List (List ℤ) → List ℤ
  | [] => []
  | [s] => s
  | s :: rest => s ++ -1 :: sentinelConcat rest

/-- The output rows of `TreeConfig.Run` before range filtering: the sentinel
concatenation of the per-seed id sets zipped with that of the snapshot sets
(`catalog.FormatCols` emits one line per row of the parallel columns). -/
def histRows (idSets snapSets : List (List ℤ)) : List (ℤ × ℤ) :=
  (sentinelConcat idSets).zip (sentinelConcat snapSets)

/-- The snapshot-range filter of `TreeConfig.Run` (tree.go lines 59-60): a row
is kept when `snaps[i] <= snapMin && snaps[i] >= snapMax`. -/
def snapFilterKeep (snapMin snapMax snap : ℤ) : Bool :=
  decide (snap ≤ snapMin) && decide (snap ≥ snapMax)

/-- Modelled from the spec: `tree.HaloHistories` (package `los/tree`, not
under `src/`) returns, for each seed id in input order, that seed's
main-progenitor branch as parallel id and snapshot sequences (§4.5); a seed
with no entry in any tree contributes an empty sequence.  The per-seed branch
lookup is abstracted as the function `branch`. -/
def haloHistories (branch : ℤ → List ℤ × List ℤ) (inputIDs : List ℤ) :
    List (List ℤ) × List (List ℤ) :=
  (inputIDs.map (fun id => (branch id).1), inputIDs.map (fun id => (branch id).2))

/-- The data rows output by `TreeConfig.Run` (tree.go lines 24-71): branch
extraction, sentinel concatenation, then the snapshot-range filter.  The
constant comment header `cString` is always prepended to these rows
(line 70). -/
def treeRunRows (snapMin snapMax : ℤ) (branch : ℤ → List ℤ × List ℤ)
    (inputIDs : List ℤ) : List (ℤ × ℤ) :=
  let sets := haloHistories branch inputIDs
  (histRows sets.1 sets.2).filter (fun p => snapFilterKeep snapMin snapMax p.2)

/-- The tree-file name test of `treeFiles` (tree.go line 82):
`n > 4 && name[:5] == "tree_" && name[n-4:] == ".dat"`. -/
def isTreeFileName (name : String) : Bool :=
  name.length > 4 && name.take 5 == "tree_" &&
    name.drop (name.length - 4) == ".dat"

/-- `treeFiles` (tree.go lines 73-87): list the tree directory (the listing
outcome is the environment input `listing`), propagate a listing error, and
otherwise return the joined paths of the names matching the tree-file
pattern — with no error even when nothing matches. -/
def treeFiles (treeDir : String) (listing : Except String (List String)) :
    Except String (List String) :=
  match listing with
  | Except.error e => Except.error e
  | Except.ok infos =>
    Except.ok ((infos.filter isTreeFileName).map
      (fun name => treeDir ++ "/" ++ name))

/-! ## Theorems -/

/-- The concatenation loop of `TreeConfig.Run` joins the per-seed sets with
exactly one sentinel `-1` between consecutive sets and none before the first
or after the last: it is `List.intercalate [-1]`. -/
theorem sentinelConcat_eq_intercalate (sets : List (List ℤ)) :
    sentinelConcat sets = List.intercalate [-1] sets := by
  match sets with
  | [] => rfl
  | [s] => simp [sentinelConcat, List.intercalate]
  | a :: b :: t =>
    have ih := sentinelConcat_eq_intercalate (b :: t)
    simp only [sentinelConcat, ih, List.intercalate, List.intersperse,
      List.flatten]
    simp

/-- C1: the claim states a history row is retained iff
`snapMin ≤ snapshot ≤ snapMax`, with snapshot 7 retained for the range
`[5, 10]`.  The filter of `TreeConfig.Run` (tree.go lines 59-60) keeps a row
iff `snap <= snapMin && snap >= snapMax`, so for `snapMin = 5, snapMax = 10`
it drops snapshot 7 even though `5 ≤ 7 ≤ 10` (snapshot 3 is dropped by both
readings).  The code's comparison direction contradicts the spec's inclusive
range (spec §4.5, flagged in §9). -/
theorem c1_snapshot_filter_code_bug :
    snapFilterKeep 5 10 7 = false ∧ snapFilterKeep 5 10 3 = false ∧
      ((5 : ℤ) ≤ 7 ∧ (7 : ℤ) ≤ 10) ∧ ¬((5 : ℤ) ≤ 3 ∧ (3 : ℤ) ≤ 10) := by
  decide

/-- C3: the claim states halo `i`'s profile support is derived from halo
`i`'s own `R200m` (the fourth parsed float column at row `i`).  The
normalization loop (prof.go line 184-185) instead reads `coords[i][4]`:
on a five-row input whose X column is `[1,1,1,1,9]` and whose R200m column is
`[4,4,4,4,4]`, halo 0's radius source evaluates to 9 (the X coordinate of row
4), not its own R200m 4; and for halo 4 the read `coords[4]` is out of bounds
(there are only four float columns), so the loop panics. -/
theorem c3_radius_wrong_source :
    normRadius [[1,1,1,1,9],[2,2,2,2,2],[3,3,3,3,3],[4,4,4,4,4]] 0 = some 9 ∧
    specR200m [[1,1,1,1,9],[2,2,2,2,2],[3,3,3,3,3],[4,4,4,4,4]] 0 = some 4 ∧
    (9 : ℝ) ≠ 4 ∧
    normRadius [[1,1,1,1,9],[2,2,2,2,2],[3,3,3,3,3],[4,4,4,4,4]] 4 = none := by
  refine ⟨rfl, rfl, by norm_num, rfl⟩

/-- C4: the claim states every array access of the per-halo normalization
loop is in bounds for any parsed input with `n ≥ 1` rows.  In fact the loop
reads `coords[i][4]` (column `i`, row 4): on a one-row input each column has
length 1, so already the first iteration's read is out of bounds and the run
panics (modelled as `none`). -/
theorem c4_norm_loop_out_of_bounds :
    normLoop ⟨1, 3, 3/100⟩ [[1], [2], [3], [4]] [[0]] [[0]] = none := rfl

/-- C7: branches of distinct seeds are concatenated in seed input order with
exactly one `(-1, -1)` sentinel row between consecutive sequences and none
leading or trailing (`sentinelConcat` is `List.intercalate [-1]`); the framing
example `[(5,10),(3,9),(-1,-1),(7,10)]` is reproduced exactly, and an empty
branch keeps its surrounding sentinel framing. -/
theorem c7_sentinel_framing :
    (∀ sets : List (List ℤ), sentinelConcat sets = List.intercalate [-1] sets) ∧
    histRows [[5,3],[7]] [[10,9],[10]] = [(5,10),(3,9),(-1,-1),(7,10)] ∧
    histRows [[5,3],[],[7]] [[10,9],[],[10]] =
      [(5,10),(3,9),(-1,-1),(-1,-1),(7,10)] := by
  refine ⟨sentinelConcat_eq_intercalate, rfl, rfl⟩

/-- Witness for C7 at a concrete seed-set list. -/
theorem c7_sentinel_framing_witness :
    sentinelConcat [[1],[2]] = List.intercalate [-1] [[1],[2]] :=
  c7_sentinel_framing.1 [[1],[2]]

/-- C8: on input with zero data rows, `TreeConfig.Run` emits zero data rows
(only the constant comment header) and no error, as the claim states; but
`ProfConfig.Run` does not return the malformed-input error: its guard tests
`len(intCols) == 0`, and `ParseCols` yields one slice per requested column
(two of them), so the guard never fires and the run panics at `snaps[0]`
(prof.go line 125) instead. -/
theorem c8_empty_input_dispatch :
    treeRunRows 5 10 (fun _ => ([], [])) [] = [] ∧
    profRunStart [] = GoResult.panicked ∧
    profRunStart [] ≠ GoResult.err "No input IDs." := by
  refine ⟨rfl, rfl, fun h => ?_⟩
  have h' : (GoResult.panicked : GoResult ℤ) = GoResult.err "No input IDs." := h
  exact GoResult.noConfusion h'

/-- C9: the claim states validation rejects non-positive bin counts, in
particular `bins = 0`.  `ProfConfig.validate` (prof.go line 63) tests
`bins < 0`, so `bins = 0` with the default multipliers is accepted; the
defaults (150, 0.03, 3.0) are accepted and a negative bin count is
rejected. -/
theorem c9_validate_accepts_zero_bins :
    ¬ validateFails ⟨0, 3, 3/100⟩ ∧ ¬ validateFails ⟨150, 3, 3/100⟩ ∧
      validateFails ⟨-1, 3, 3/100⟩ := by
  refine ⟨by norm_num [validateFails], by norm_num [validateFails],
    by norm_num [validateFails]⟩

/-- C10 counterexample: a directory listing that succeeds but contains no
name matching the tree-file pattern makes `treeFiles` return the empty list
with no error, contradicting the claim that discovery fails with an error
whenever no matching file exists (and that it otherwise returns a non-empty
list). -/
theorem c10_no_match_not_error :
    treeFiles "sim" (Except.ok ["halos.dat", "notes.txt"]) = Except.ok [] := by
  rfl

/-- C10 amended: `treeFiles` fails iff the directory listing itself fails,
propagating that error; on a successful listing it returns exactly the joined
paths of the names matching the tree-file pattern — possibly the empty
list. -/
theorem c10_discovery_amended (treeDir : String)
    (listing : Except String (List String)) :
    (∀ e, listing = Except.error e → treeFiles treeDir listing = Except.error e) ∧
    (∀ names, listing = Except.ok names →
      treeFiles treeDir listing =
        Except.ok ((names.filter isTreeFileName).map
          (fun name => treeDir ++ "/" ++ name))) := by
  constructor
  · intro e he; rw [he]; rfl
  · intro names hn; rw [hn]; rfl

/-- Witness for C10's amended theorem at a concrete directory and listing. -/
theorem c10_discovery_amended_witness :
    treeFiles "sim" (Except.ok ["tree_0.dat", "halos.dat"]) =
      Except.ok ["sim/tree_0.dat"] ∧
    treeFiles "sim" (Except.error "unlistable") = Except.error "unlistable" := by
  constructor
  · rw [(c10_discovery_amended "sim"
      (Except.ok ["tree_0.dat", "halos.dat"])).2 ["tree_0.dat", "halos.dat"] rfl]
    rfl
  · exact (c10_discovery_amended "sim" (Except.error "unlistable")).1
      "unlistable" rfl

/-- Reading index `j < n` of `(List.range n).map f` with default 0 gives
`f j`. -/
theorem getD_range_map (f : ℕ → ℝ) (n j : ℕ) (h : j < n) :
    (((List.range n).map f).getD j 0) = f j := by
  simp [List.getD_eq_getElem?_getD, List.getElem?_map, List.getElem?_range h]

/-- One is strictly below `e`. -/
theorem exp_one_gt_one : (1 : ℝ) < Real.exp 1 := by
  linarith [Real.add_one_le_exp 1]

/-- The squared distance of the witness particle `(e^(1/2), 0, 0)` from the
origin-centered unit sphere is `e`. -/
theorem sqDist_witness_eval :
    sqDist ⟨(0, 0, 0), 1⟩ (Real.exp (1/2), 0, 0) = Real.exp 1 := by
  simp [sqDist]
  rw [← Real.exp_add]
  norm_num

/-- C2: the claim states an out-of-range particle only excludes itself and
subsequent particles of the block are still accumulated.  The particle loop
of `insertPoints` (prof.go line 230) instead RETURNS on the first
out-of-range particle: with `R = 1`, `rMinMult = 1/2`, `rMaxMult = 2`, a block
whose first particle sits at the center (`r² = 0 ≤ rMin² = 1/4`) and whose
second particle has `r² = 1` strictly inside `(rMin², rMax²) = (1/4, 4)` with
mass 1, the bins come back unchanged (`[0, 0]`): the in-range second particle
was never tested, contradicting the claim (which the spec itself states in
§4.3/§9 against this early-return). -/
theorem c2_early_return_code_bug :
    insertPoints [0, 0] ⟨(0, 0, 0), 1⟩ [(0, 0, 0), (1, 0, 0)] [1, 1]
        ⟨2, 2, 1/2⟩ = some [0, 0] ∧
    sqDist ⟨(0, 0, 0), 1⟩ (0, 0, 0) ≤ ((1 : ℝ) * (1/2)) * ((1 : ℝ) * (1/2)) ∧
    ((1 : ℝ) * (1/2)) * ((1 : ℝ) * (1/2)) < sqDist ⟨(0, 0, 0), 1⟩ (1, 0, 0) ∧
    sqDist ⟨(0, 0, 0), 1⟩ (1, 0, 0) < ((1 : ℝ) * 2) * ((1 : ℝ) * 2) := by
  refine ⟨by norm_num [insertPoints, insertLoop], ?_, ?_, ?_⟩ <;>
    norm_num [sqDist]

/-- C5: a particle that passes the range test `rMin² < r² < rMax²` has its
mass added to exactly the bin `⌊(ln r − ln rMin) / Δln r⌋` (`specBinIndex`,
stated from the claim) and to no other bin: the code's
`int((log(r²)/2 − lrMin)/dlr)` equals that floor because `log(r²)/2 = ln r`
and the argument is positive, the index is within `[0, bins)`, and the update
touches only that entry. -/
theorem c5_in_range_bin_assignment (config : ProfConfig) (s : Sphere)
    (rhos : List ℝ) (p : ℝ × ℝ × ℝ) (m : ℝ)
    (hbins : 0 < config.bins)
    (hR : 0 < s.R) (hmin : 0 < config.rMinMult)
    (hlt : config.rMinMult < config.rMaxMult)
    (hlen : rhos.length = config.bins.toNat)
    (hlo : (s.R * config.rMinMult) * (s.R * config.rMinMult) < sqDist s p)
    (hhi : sqDist s p < (s.R * config.rMaxMult) * (s.R * config.rMaxMult)) :
    insertPoints rhos s [p] [m] config =
      some (rhos.set (specBinIndex config s (sqDist s p)).toNat
        (rhos.getD (specBinIndex config s (sqDist s p)).toNat 0 + m)) ∧
    0 ≤ specBinIndex config s (sqDist s p) ∧
    specBinIndex config s (sqDist s p) < config.bins ∧
    (∀ k : ℕ, k ≠ (specBinIndex config s (sqDist s p)).toNat →
      (rhos.set (specBinIndex config s (sqDist s p)).toNat
        (rhos.getD (specBinIndex config s (sqDist s p)).toNat 0 + m)).getD k 0 =
        rhos.getD k 0) := by
  obtain ⟨x, y, z⟩ := p
  have hrMin : 0 < s.R * config.rMinMult := mul_pos hR hmin
  have hrMax : s.R * config.rMinMult < s.R * config.rMaxMult :=
    mul_lt_mul_of_pos_left hlt hR
  have hrMaxPos : 0 < s.R * config.rMaxMult := lt_trans hrMin hrMax
  have hr2pos : 0 < sqDist s (x, y, z) := lt_trans (mul_pos hrMin hrMin) hlo
  have hlog : Real.log (s.R * config.rMinMult) <
      Real.log (s.R * config.rMaxMult) :=
    Real.log_lt_log hrMin hrMax
  have hbinsR : (0 : ℝ) < (config.bins : ℝ) := by exact_mod_cast hbins
  have hdlr : 0 < (Real.log (s.R * config.rMaxMult) -
      Real.log (s.R * config.rMinMult)) / (config.bins : ℝ) :=
    div_pos (sub_pos.mpr hlog) hbinsR
  have hlr_lo : Real.log (s.R * config.rMinMult) <
      Real.log (sqDist s (x, y, z)) / 2 := by
    have h2 : Real.log ((s.R * config.rMinMult) * (s.R * config.rMinMult)) <
        Real.log (sqDist s (x, y, z)) :=
      Real.log_lt_log (mul_pos hrMin hrMin) hlo
    rw [Real.log_mul (ne_of_gt hrMin) (ne_of_gt hrMin)] at h2
    linarith
  have hlr_hi : Real.log (sqDist s (x, y, z)) / 2 <
      Real.log (s.R * config.rMaxMult) := by
    have h2 : Real.log (sqDist s (x, y, z)) <
        Real.log ((s.R * config.rMaxMult) * (s.R * config.rMaxMult)) :=
      Real.log_lt_log hr2pos hhi
    rw [Real.log_mul (ne_of_gt hrMaxPos) (ne_of_gt hrMaxPos)] at h2
    linarith
  have harg_pos : 0 ≤ (Real.log (sqDist s (x, y, z)) / 2 -
      Real.log (s.R * config.rMinMult)) /
      ((Real.log (s.R * config.rMaxMult) -
        Real.log (s.R * config.rMinMult)) / (config.bins : ℝ)) :=
    (div_pos (sub_pos.mpr hlr_lo) hdlr).le
  have harg_lt : (Real.log (sqDist s (x, y, z)) / 2 -
      Real.log (s.R * config.rMinMult)) /
      ((Real.log (s.R * config.rMaxMult) -
        Real.log (s.R * config.rMinMult)) / (config.bins : ℝ)) <
      (config.bins : ℝ) := by
    rw [div_lt_iff₀ hdlr]
    have hcancel : (config.bins : ℝ) *
        ((Real.log (s.R * config.rMaxMult) -
          Real.log (s.R * config.rMinMult)) / (config.bins : ℝ)) =
        Real.log (s.R * config.rMaxMult) - Real.log (s.R * config.rMinMult) := by
      field_simp
    rw [hcancel]
    linarith
  have hspec : specBinIndex config s (sqDist s (x, y, z)) =
      ⌊(Real.log (sqDist s (x, y, z)) / 2 - Real.log (s.R * config.rMinMult)) /
        ((Real.log (s.R * config.rMaxMult) -
          Real.log (s.R * config.rMinMult)) / (config.bins : ℝ))⌋ := by
    rw [specBinIndex, Real.log_sqrt hr2pos.le]
  have hgoInt : goInt ((Real.log (sqDist s (x, y, z)) / 2 -
      Real.log (s.R * config.rMinMult)) /
      ((Real.log (s.R * config.rMaxMult) -
        Real.log (s.R * config.rMinMult)) / (config.bins : ℝ))) =
      specBinIndex config s (sqDist s (x, y, z)) := by
    rw [goInt, if_pos harg_pos, hspec]
  have hnonneg : 0 ≤ specBinIndex config s (sqDist s (x, y, z)) := by
    rw [hspec]; exact Int.floor_nonneg.mpr harg_pos
  have hltbins : specBinIndex config s (sqDist s (x, y, z)) < config.bins := by
    rw [hspec]; exact Int.floor_lt.mpr (by exact_mod_cast harg_lt)
  have hidx : (specBinIndex config s (sqDist s (x, y, z))).toNat <
      rhos.length := by
    rw [hlen]; exact (Int.toNat_lt_toNat hbins).mpr hltbins
  have hsq : (x - s.C.1) * (x - s.C.1) + (y - s.C.2.1) * (y - s.C.2.1) +
      (z - s.C.2.2) * (z - s.C.2.2) = sqDist s (x, y, z) := rfl
  have hmain : insertPoints rhos s [(x, y, z)] [m] config =
      some (rhos.set (specBinIndex config s (sqDist s (x, y, z))).toNat
        (rhos.getD (specBinIndex config s (sqDist s (x, y, z))).toNat 0 + m)) := by
    show insertLoop (Real.log (s.R * config.rMinMult))
      ((Real.log (s.R * config.rMaxMult) - Real.log (s.R * config.rMinMult)) /
        (config.bins : ℝ))
      ((s.R * config.rMinMult) * (s.R * config.rMinMult))
      ((s.R * config.rMaxMult) * (s.R * config.rMaxMult))
      s.C.1 s.C.2.1 s.C.2.2 rhos [(x, y, z)] [m] = _
    simp only [insertLoop, hsq]
    rw [if_neg (not_or.mpr ⟨not_le.mpr hlo, not_le.mpr hhi⟩), hgoInt,
      if_pos ⟨hnonneg, hidx⟩]
  refine ⟨hmain, hnonneg, hltbins, fun k hk => ?_⟩
  simp [List.getD_eq_getElem?_getD, List.getElem?_set_ne (Ne.symm hk)]

/-- Witness for C5: one bin, unit sphere at the origin, support
`[1, e]` squared to `(1, e²)`, particle at distance `e^(1/2)` with mass 5. -/
theorem c5_in_range_bin_assignment_witness :
    insertPoints [0] ⟨(0, 0, 0), 1⟩ [(Real.exp (1/2), 0, 0)] [5]
        ⟨1, Real.exp 1, 1⟩ =
      some ([0].set (specBinIndex ⟨1, Real.exp 1, 1⟩ ⟨(0, 0, 0), 1⟩
          (sqDist ⟨(0, 0, 0), 1⟩ (Real.exp (1/2), 0, 0))).toNat
        ([0].getD (specBinIndex ⟨1, Real.exp 1, 1⟩ ⟨(0, 0, 0), 1⟩
          (sqDist ⟨(0, 0, 0), 1⟩ (Real.exp (1/2), 0, 0))).toNat 0 + 5)) :=
  (c5_in_range_bin_assignment ⟨1, Real.exp 1, 1⟩ ⟨(0, 0, 0), 1⟩ [0]
    (Real.exp (1/2), 0, 0) 5 (by decide) (by norm_num) (by norm_num)
    exp_one_gt_one rfl
    (by rw [sqDist_witness_eval]; simp)
    (by rw [sqDist_witness_eval]; simp;
        nlinarith [exp_one_gt_one, Real.exp_pos 1])).1

/-- C6: over a support `0 < rMin < rMax`, the normalizer succeeds, places bin
`j`'s center radius at `exp(ln rMin + Δlnr·(j+1/2))` (so radii strictly
increase), divides bin `j`'s raw mass by the positive shell volume
`(4/3)π(r_hi³ − r_lo³)` with the log-space edges exponentiated, and maps a
zero-mass bin to density exactly 0. -/
theorem c6_profile_normalization (rs rhos : List ℝ) (rMin rMax : ℝ)
    (h0 : 0 < rMin) (h1 : rMin < rMax) (hlen : rhos.length = rs.length) :
    (processProfile rs rhos rMin rMax).isSome = true ∧
    (∀ j : ℕ, j < rs.length →
      (processProfileOut rs rhos rMin rMax).1.getD j 0 =
        specEdge rMin rMax rs.length ((j : ℝ) + 1/2)) ∧
    (∀ j : ℕ, j + 1 < rs.length →
      (processProfileOut rs rhos rMin rMax).1.getD j 0 <
        (processProfileOut rs rhos rMin rMax).1.getD (j + 1) 0) ∧
    (∀ j : ℕ, j < rs.length →
      0 < specShellVol rMin rMax rs.length j ∧
      (processProfileOut rs rhos rMin rMax).2.getD j 0 =
        rhos.getD j 0 / specShellVol rMin rMax rs.length j) ∧
    (∀ j : ℕ, j < rs.length → rhos.getD j 0 = 0 →
      (processProfileOut rs rhos rMin rMax).2.getD j 0 = 0) := by
  have hnotlt : ¬(rhos.length < rs.length) := by rw [hlen]; exact lt_irrefl _
  have hfst : (processProfileOut rs rhos rMin rMax).1 =
      (List.range rs.length).map
        (fun (j : ℕ) => specEdge rMin rMax rs.length ((j : ℝ) + 1/2)) := by
    simp only [processProfileOut, processProfile]
    rw [if_neg hnotlt]
    rfl
  have hsnd : (processProfileOut rs rhos rMin rMax).2 =
      (List.range rs.length).map
        (fun (j : ℕ) => rhos.getD j 0 / specShellVol rMin rMax rs.length j) := by
    simp only [processProfileOut, processProfile]
    rw [if_neg hnotlt]
    simp only [Option.getD_some]
    congr 1
    funext j
    apply congrArg
    simp only [specShellVol, specEdge]
    rw [pow_three, pow_three,
      add_comm (Real.log rMin)
        ((Real.log rMax - Real.log rMin) / (rs.length : ℝ) * ((j : ℝ) + 1)),
      add_comm (Real.log rMin)
        ((Real.log rMax - Real.log rMin) / (rs.length : ℝ) * (j : ℝ))]
    ring
  have hmono : ∀ x x' : ℝ, x < x' → 0 < rs.length →
      specEdge rMin rMax rs.length x < specEdge rMin rMax rs.length x' := by
    intro x x' hx hn
    have hdlr : 0 < (Real.log rMax - Real.log rMin) / (rs.length : ℝ) :=
      div_pos (sub_pos.mpr (Real.log_lt_log h0 h1)) (by exact_mod_cast hn)
    exact Real.exp_lt_exp.mpr (by nlinarith)
  refine ⟨?_, ?_, ?_, ?_, ?_⟩
  · simp only [processProfile]
    rw [if_neg hnotlt]
    rfl
  · intro j hj
    rw [hfst, getD_range_map _ _ _ hj]
  · intro j hj
    rw [hfst, getD_range_map _ _ _ (Nat.lt_of_succ_lt hj),
      getD_range_map _ _ _ hj]
    have hn : 0 < rs.length := by omega
    apply hmono
    · push_cast; linarith
    · exact hn
  · intro j hj
    constructor
    · have hn : 0 < rs.length := Nat.lt_of_le_of_lt (Nat.zero_le j) hj
      have hedge : specEdge rMin rMax rs.length (j : ℝ) <
          specEdge rMin rMax rs.length ((j : ℝ) + 1) := by
        apply hmono _ _ (by linarith) hn
      have hpos : 0 < specEdge rMin rMax rs.length (j : ℝ) := Real.exp_pos _
      have hcube : (specEdge rMin rMax rs.length (j : ℝ)) ^ 3 <
          (specEdge rMin rMax rs.length ((j : ℝ) + 1)) ^ 3 :=
        pow_lt_pow_left₀ hedge hpos.le (by norm_num)
      have : (0:ℝ) < 4/3 * Real.pi := by positivity
      simp only [specShellVol]
      nlinarith
    · rw [hsnd, getD_range_map _ _ _ hj]
  · intro j hj hz
    rw [hsnd, getD_range_map _ _ _ hj, hz, zero_div]

/-- Witness for C6: one bin of raw mass 0 over the support `[1, e]`. -/
theorem c6_profile_normalization_witness :
    (0 : ℝ) < 1 ∧ (1 : ℝ) < Real.exp 1 ∧
    (processProfile [0] [0] 1 (Real.exp 1)).isSome = true :=
  ⟨one_pos, exp_one_gt_one,
    (c6_profile_normalization [0] [0] 1 (Real.exp 1) one_pos
      exp_one_gt_one rfl).1⟩

end Shellfish
